import Mathlib

/-!
Verification of the multi-agent debate orchestration engine.

This file gives a shallow embedding, in Lean 4, of the debate engine found in
`llm_server.py` (streaming round coordinator, agent runner, synthesizer,
event emitter), `engine.py` (concurrent fan-out round execution) and
`agentfactory_updated.py` (per-agent prompt construction), and proves
properties of the embedded definitions.

Modelling conventions:
- The external text-generation backend (the Language Model Gateway) is a
  parameter `g : Gateway := String -> Option String`; `none` models an
  invocation that raises or times out, `some t` models a successful call
  returning text `t`.
- Python string primitives are modelled at the character-list level:
  `pyLower` models `str.lower()` (for the ASCII texts involved),
  `pyTake` models slicing `s[:n]` (Python slices by code point),
  `pyStrip` models `str.strip()`, `pyJoin` models `sep.join(l)`,
  and `containsSub hay pat` models `pat in hay` (substring test).
- The global `debate_cancelled` flag is set once from outside and read at
  well-defined checkpoints of the generator.  A run is parametrised by
  `c : Option Nat`: `none` means the flag is never set, `some m` means the
  flag is first observed as set at the `m`-th read (reads are counted from
  0 in program order), and stays set afterwards.  This captures every
  possible interleaving of a single monotone flag with the sequential
  generator.
- The SSE `yield` statements are modelled as an ordered list of structured
  `Event` values; `etype` recovers the JSON `type` discriminator string.
-/

/-- Models Python `str.lower()` character-wise (ASCII). -/
def pyLower (s : String) : String := ⟨s.data.map Char.toLower⟩

/-- Models Python slicing `s[:n]` (by code point). -/
def pyTake (s : String) (n : Nat) : String := ⟨s.data.take n⟩

/-- Models Python `str.strip()`: drop whitespace from both ends. -/
def pyStrip (s : String) : String :=
  ⟨((s.data.dropWhile Char.isWhitespace).reverse.dropWhile Char.isWhitespace).reverse⟩

/-- Models Python substring test `pat in hay`. -/
def containsSub (hay pat : String) : Bool := decide (pat.data <:+: hay.data)

/-- Models Python `sep.join(l)`. -/
def pyJoin (sep : String) : List String → String
  | [] => ""
  | x :: xs => xs.foldl (fun acc y => acc ++ sep ++ y) x

/-- Models Python `l[-n:]` for `n > 0`: the last `n` elements. -/
def lastN {α : Type} (l : List α) (n : Nat) : List α := l.drop (l.length - n)

-- ============= Data model (llm_server.py) =============

/-- One entry of the static agent registry `AGENTS` in `llm_server.py`.
Only the fields read by the modelled code paths are kept (`name` and
`system_prompt`); the presentational fields `icon`, `endpoint`, `role`,
`perspective` are never read by the engine. -/
structure Agent where
  name : String
  system_prompt : String
deriving DecidableEq, Repr

/-- The `AgentResponse` dict built by `agent_node_streaming`. -/
structure AgentResponse where
  agent : String
  round : Int
  stance : String
  arguments : List String
  response : String
deriving DecidableEq, Repr

/-- The `DebateState` TypedDict of `llm_server.py`. -/
structure DebateState where
  topic : String
  current_round : Int
  max_rounds : Int
  agent_responses : List AgentResponse
  all_rounds : List (List AgentResponse)
  synthesis : String
  verdict : String
  current_agent_index : Int
deriving DecidableEq, Repr

/-- The Language Model Gateway: `none` models failure/timeout of
`llm.invoke`, `some t` a successful completion with text `t`. -/
def Gateway : Type := String → Option String

-- ============= Agent registry (llm_server.py, AGENTS) =============

/-- Registry entry "Finance" of `AGENTS`. -/
def AG_Finance : Agent :=
  ⟨"Finance",
   "You are the Chief Financial Officer (CFO). Your ONLY concern is money and financial performance.\nYou analyze every decision through the lens of: profit margins, revenue growth, cost reduction, ROI, cash flow, and shareholder value.\nYou tend to be conservative and focus on proven financial strategies.\nBe direct and opinionated. Use financial terminology."⟩

/-- Registry entry "Market" of `AGENTS`. -/
def AG_Market : Agent :=
  ⟨"Market",
   "You are the Chief Marketing Officer (CMO). You obsess over customers, market positioning, and competitive advantage.\nYou analyze: customer sentiment, market share, brand perception, competitor moves, and market trends.\nYou prioritize customer satisfaction and market dominance over short-term profits.\nBe strategic and customer-focused. Quote market data when possible."⟩

/-- Registry entry "Innovator" of `AGENTS`. -/
def AG_Innovator : Agent :=
  ⟨"Innovator",
   "You are the Chief Innovation Officer (CIO). You think about the future and disruptive possibilities.\nYou challenge the status quo and push for bold, innovative solutions. You care about: differentiation, technological edge, and long-term vision.\nYou\x27re optimistic and forward-thinking, sometimes at odds with risk-averse colleagues.\nBe visionary and enthusiastic about new ideas."⟩

/-- Registry entry "Risk Manager" of `AGENTS`. -/
def AG_RiskManager : Agent :=
  ⟨"Risk Manager",
   "You are the Chief Risk Officer (CRO). Your job is to identify what could go wrong.\nYou analyze: regulatory risks, operational risks, reputational damage, legal issues, and worst-case scenarios.\nYou\x27re naturally cautious and often push back on risky proposals. You demand contingency plans.\nBe thorough in identifying potential problems and failures."⟩

/-- Registry entry "Devils Advocate" of `AGENTS`. -/
def AG_DevilsAdvocate : Agent :=
  ⟨"Devils Advocate",
   "You are the Devil\x27s Advocate. Your role is to challenge EVERYTHING and find holes in arguments.\nQuestion assumptions, point out logical flaws, present counterarguments, and expose weaknesses.\nYou\x27re contrarian by nature and enjoy poking holes in consensus. You ask \"but what if...\" constantly.\nBe provocative and skeptical. Don\x27t accept things at face value."⟩

/-- Registry entry "Operator" of `AGENTS`. -/
def AG_Operator : Agent :=
  ⟨"Operator",
   "You are the Chief Operations Officer (COO). You care about execution and practical implementation.\nYou analyze: resource requirements, timeline feasibility, team capacity, process efficiency, and operational complexity.\nYou\x27re pragmatic and grounded. You ask \"how will this actually work?\" and \"do we have the resources?\"\nBe practical and implementation-focused. Question unrealistic plans."⟩

/-- The fixed registry `AGENTS` of `llm_server.py`, in dispatch order. -/
def AGENTS : List Agent :=
  [AG_Finance, AG_Market, AG_Innovator, AG_RiskManager, AG_DevilsAdvocate, AG_Operator]

/-- The `SYNTHESIZER` system prompt of `llm_server.py`. -/
def SYNTHESIZER_system_prompt : String :=
  "You are the Chief Executive Officer (CEO). You must synthesize all perspectives and make a final decision.\nBalance financial, market, innovation, risk, and operational considerations.\nProvide a clear executive summary and decisive recommendation.\nYour verdict should be actionable: Approve, Reject, or Modify with specific conditions."

-- ============= Context Builder (llm_server.py, create_agent_prompt) =============

/-- One `"{agent}: {response}\n\n"` line of the context sections. -/
def respLine (r : AgentResponse) : String := r.agent ++ ": " ++ r.response ++ "\n\n"

/-- The `"--- Round i ---"` block of the previous-discussions section
(emitted only when the round is non-empty, as in the source). -/
def prevRoundBlock (idx : Nat) (rr : List AgentResponse) : String :=
  if rr = [] then ""
  else "\n--- Round " ++ toString idx ++ " ---\n" ++ String.join (rr.map respLine)

/-- The `"=== PREVIOUS DISCUSSIONS ==="` section: all completed rounds in
round order (1-based enumeration), each in stored (dispatch) order. -/
def prevSection (all_rounds : List (List AgentResponse)) : String :=
  "\n=== PREVIOUS DISCUSSIONS ===\n" ++
    String.join (all_rounds.enum.map (fun p => prevRoundBlock (p.1 + 1) p.2))

/-- Round-1 task instructions of `create_agent_prompt`. -/
def taskRound1 : String :=
  "\n=== YOUR TASK ===\nThis is Round 1. Give your initial analysis from YOUR unique perspective.\nStart by clearly stating your stance: SUPPORT, OPPOSE, or NEUTRAL.\nThen provide 2-3 specific points that support your position from your role\x27s viewpoint.\nKeep response to 3-4 sentences maximum."

/-- Round-2 task instructions of `create_agent_prompt`. -/
def taskRound2 : String :=
  "\n=== YOUR TASK ===\nThis is Round 2. You\x27ve heard from others. Now respond to their arguments.\n- Address at least one other agent\x27s point (agree, disagree, or qualify)\n- Strengthen your position with new evidence or reasoning\n- Stay true to your role\x27s perspective\nKeep response to 3-4 sentences maximum."

/-- Final-round task instructions of `create_agent_prompt`. -/
def taskRoundFinal : String :=
  "\n=== YOUR TASK ===\nThis is Round 3 - FINAL STATEMENTS. Make your closing argument.\n- Reinforce your strongest points\n- Acknowledge valid concerns from others if relevant\n- Give your final recommendation from your role\x27s perspective\nKeep response to 3-4 sentences maximum."

/-- `create_agent_prompt(agent, state)` of `llm_server.py`. -/
def create_agent_prompt (agent : Agent) (s : DebateState) : String :=
  agent.system_prompt ++ "\n\nDEBATE TOPIC: " ++ s.topic ++
    "\nCURRENT ROUND: " ++ toString s.current_round ++ " of " ++ toString s.max_rounds ++
    "\n\n" ++
  (if 1 < s.current_round ∧ s.all_rounds ≠ [] then prevSection s.all_rounds else "") ++
  (if s.agent_responses ≠ [] then
      "\n=== CURRENT ROUND (so far) ===\n" ++ String.join (s.agent_responses.map respLine)
    else "") ++
  (if s.current_round = 1 then taskRound1
   else if s.current_round = 2 then taskRound2
   else taskRoundFinal)

-- ============= Agent Runner (llm_server.py, agent_node_streaming) =============

/-- The support-keyword list scanned by `agent_node_streaming`. -/
def supportWords : List String := ["support", "approve", "favor", "yes", "agree", "positive"]

/-- The oppose-keyword list scanned by `agent_node_streaming`. -/
def opposeWords : List String := ["oppose", "against", "reject", "no", "disagree", "negative"]

/-- The stance-detection logic of `agent_node_streaming`: scan the first 200
characters of the lower-cased response; support keywords first, then oppose
keywords, default "Neutral". -/
def classify_stance (response : String) : String :=
  let response_lower := pyLower response
  let first_200 := pyTake response_lower 200
  if supportWords.any (fun w => containsSub first_200 w) then "Support"
  else if opposeWords.any (fun w => containsSub first_200 w) then "Oppose"
  else "Neutral"

/-- `agent_node_streaming(state, agent)` of `llm_server.py` (the streaming
path passes no callback).  `cflag` is the value of `debate_cancelled` read at
its entry; a failing gateway call (the `except` branch) yields `[]`. -/
def agent_node (g : Gateway) (cflag : Bool) (s : DebateState) (a : Agent) :
    List AgentResponse :=
  if cflag then []
  else
    match g (create_agent_prompt a s) with
    | none => []
    | some response =>
        [{ agent := a.name, round := s.current_round, stance := classify_stance response,
           arguments := [], response := pyStrip response }]

-- ============= Round Coordinator (llm_server.py, round_coordinator) =============

/-- `round_coordinator(state)` of `llm_server.py`: the caller does
`state.update(round_coordinator(state))`, so returning the Python empty dict
is modelled as returning the state unchanged. -/
def round_coordinator (s : DebateState) : DebateState :=
  if s.agent_responses = [] then s
  else
    let new_all_rounds := s.all_rounds ++ [s.agent_responses]
    if s.current_round < s.max_rounds then
      { s with all_rounds := new_all_rounds, agent_responses := [],
               current_round := s.current_round + 1, current_agent_index := 0 }
    else
      { s with all_rounds := new_all_rounds, agent_responses := [] }

-- ============= Synthesizer (llm_server.py, synthesizer_node_streaming) =============

/-- The flat `all_arguments` list built by `synthesizer_node_streaming`:
a round header followed by one tagged line per response, per round. -/
def synthArgs (all_rounds : List (List AgentResponse)) : List String :=
  (all_rounds.enum.map (fun p =>
      ("\n=== Round " ++ toString (p.1 + 1) ++ " ===") ::
        p.2.map (fun r => r.agent ++ " (" ++ r.stance ++ "): " ++ r.response))).flatten

/-- The synthesizer prompt of `synthesizer_node_streaming`. -/
def synthPrompt (s : DebateState) : String :=
  SYNTHESIZER_system_prompt ++ "\n\nDEBATE TOPIC: " ++ s.topic ++
    "\n\nFULL DEBATE TRANSCRIPT:\n" ++ pyJoin "\n" (synthArgs s.all_rounds) ++
    "\n\n=== YOUR TASK ===\nAs CEO, provide:\n1. Executive Summary (2-3 sentences synthesizing all viewpoints)\n2. Key Trade-offs (what are the main tensions?)\n3. Final Decision: APPROVE / REJECT / MODIFY (with conditions)\n4. Rationale (why this decision?)\n\nKeep total response to 5-6 sentences."

/-- The verdict-extraction logic of `synthesizer_node_streaming`: the
lower-cased synthesis output is scanned for keyword groups in priority order
approve-group, reject-group, modify-group; no match defaults to UNDER REVIEW. -/
def classify_verdict (t : String) : String :=
  let verdict_text := pyLower t
  if containsSub verdict_text "approve" || containsSub verdict_text "proceed" then "APPROVED"
  else if containsSub verdict_text "reject" || containsSub verdict_text "decline" then "REJECTED"
  else if containsSub verdict_text "modify" || containsSub verdict_text "conditional" then
    "CONDITIONAL APPROVAL"
  else "UNDER REVIEW"

/-- `synthesizer_node_streaming(state)` of `llm_server.py`, returning the
`(synthesis, verdict)` pair; the `except` branch returns the sentinel pair. -/
def synthesizer_node (g : Gateway) (s : DebateState) : String × String :=
  match g (synthPrompt s) with
  | some t => (pyStrip t, classify_verdict t)
  | none => ("Synthesis unavailable", "Unable to generate verdict")

-- ============= Event stream (llm_server.py, run_debate_streaming) =============

/-- The SSE events yielded by `run_debate_streaming`, as structured values
(each `yield` in the source emits one JSON record with these payloads). -/
inductive Event where
  | start (topic : String) (rounds : Int)
  | round_start (round : Int)
  | agent_start (agent : String) (round : Int)
  | agent_response (data : AgentResponse)
  | round_complete (round : Int)
  | synthesis_start
  | synthesis (synthesis verdict : String)
  | cancelled
  | complete
deriving DecidableEq, Repr

/-- The JSON `type` discriminator of an event, as written by the source. -/
def etype : Event → String
  | .start _ _ => "start"
  | .round_start _ => "round_start"
  | .agent_start _ _ => "agent_start"
  | .agent_response _ => "agent_response"
  | .round_complete _ => "round_complete"
  | .synthesis_start => "synthesis_start"
  | .synthesis _ _ => "synthesis"
  | .cancelled => "cancelled"
  | .complete => "complete"

/-- The value the `debate_cancelled` flag shows at its `k`-th read (reads
counted from 0, in program order, after the reset at the top of
`run_debate_streaming`).  `c = none`: `cancel` is never called; `c = some m`:
the flag is first seen set at read `m` and at every later read (the flag is
set once and never cleared during a run). -/
def cancelRead (c : Option Nat) (k : Nat) : Bool :=
  match c with
  | none => false
  | some m => decide (m ≤ k)

/-- The running data of the generator: events yielded so far, the mutable
`state` dict, the number of flag reads performed, and whether the generator
has returned early after yielding `cancelled`. -/
structure DFlow where
  evs : List Event
  st : DebateState
  k : Nat
  halt : Bool
deriving Repr

/-- The body of the `for agent in AGENTS` loop of `run_debate_streaming`:
per agent one flag read at the loop guard (yield `cancelled` and return if
set), then `agent_start`, then `agent_node_streaming` (which performs its
own flag read at entry), then the collected response is appended to
`state[agent_responses]` and yielded when non-empty. -/
def runAgents (g : Gateway) (c : Option Nat) : List Agent → DFlow → DFlow
  | [], f => f
  | a :: rest, f =>
    if f.halt then f
    else if cancelRead c f.k then
      { f with evs := f.evs ++ [.cancelled], k := f.k + 1, halt := true }
    else
      let f1 : DFlow := { f with
        k := f.k + 1
        evs := f.evs ++ [.agent_start a.name f.st.current_round] }
      let rs := agent_node g (cancelRead c f1.k) f1.st a
      let f2 : DFlow := { f1 with k := f1.k + 1 }
      match rs with
      | [] => runAgents g c rest f2
      | r :: _ =>
          runAgents g c rest
            { f2 with
              st := { f2.st with agent_responses := f2.st.agent_responses ++ [r] },
              evs := f2.evs ++ [.agent_response r] }

/-- The `for round_num in range(1, num_rounds + 1)` loop of
`run_debate_streaming`: per round one flag read at the loop top (yield
`cancelled` and return if set), reset of `current_round`/`agent_responses`,
`round_start`, the agent loop, `round_coordinator`, `round_complete`. -/
def runRounds (g : Gateway) (c : Option Nat) : List Int → DFlow → DFlow
  | [], f => f
  | rn :: rest, f =>
    if f.halt then f
    else if cancelRead c f.k then
      { f with evs := f.evs ++ [.cancelled], k := f.k + 1, halt := true }
    else
      let s1 : DebateState := { f.st with current_round := rn, agent_responses := [] }
      let f1 : DFlow := { f with st := s1, k := f.k + 1, evs := f.evs ++ [.round_start rn] }
      let f2 := runAgents g c AGENTS f1
      if f2.halt then f2
      else
        runRounds g c rest
          { f2 with st := round_coordinator f2.st,
                    evs := f2.evs ++ [.round_complete rn] }

/-- The list of round numbers `range(1, num_rounds + 1)` (empty when
`num_rounds < 1`, as for Python `range`). -/
def roundNums (num_rounds : Int) : List Int :=
  (List.range num_rounds.toNat).map (fun i => Int.ofNat i + 1)

/-- The initial `state` dict of `run_debate_streaming`. -/
def initState (topic : String) (num_rounds : Int) : DebateState :=
  { topic := topic, current_round := 1, max_rounds := num_rounds,
    agent_responses := [], all_rounds := [], synthesis := "", verdict := "",
    current_agent_index := 0 }

/-- `run_debate_streaming(topic, num_rounds)` of `llm_server.py`: `start`,
the round loop, then (one more flag read at `if not debate_cancelled`) the
synthesis step, then `complete` — unless the generator already returned
after a `cancelled` event. -/
def run_debate (g : Gateway) (c : Option Nat) (topic : String) (num_rounds : Int) : DFlow :=
  let f0 : DFlow :=
    { evs := [.start topic num_rounds], st := initState topic num_rounds, k := 0, halt := false }
  let f1 := runRounds g c (roundNums num_rounds) f0
  if f1.halt then f1
  else
    let f2 : DFlow :=
      if cancelRead c f1.k then { f1 with k := f1.k + 1 }
      else
        let sv := synthesizer_node g f1.st
        { f1 with
          st := { f1.st with synthesis := sv.1, verdict := sv.2 },
          evs := f1.evs ++ [.synthesis_start, .synthesis sv.1 sv.2],
          k := f1.k + 1 }
    { f2 with evs := f2.evs ++ [.complete] }

/-- Python truthiness default `request.rounds or 3` of `debate_stream`:
`None` and `0` are falsy and replaced by the default 3. -/
def pyOrDefault (rounds : Option Int) : Int :=
  match rounds with
  | none => 3
  | some r => if r = 0 then 3 else r

/-- The `/api/debate/stream` endpoint handler `debate_stream(request)`:
no validation is performed on the request fields; the streaming run is
started unconditionally with `request.rounds or 3` rounds. -/
def debate_stream (g : Gateway) (c : Option Nat) (topic : String)
    (rounds : Option Int) : DFlow :=
  run_debate g c topic (pyOrDefault rounds)

-- ============= Concurrent round execution (engine.py) =============

/-- The agent-name registry of `AgentFactory.agents` in
`agentfactory_updated.py`; `get_all_agents()` returns the dict keys in
insertion order, which is the dispatch order of `engine.py`. -/
def factoryAgentNames : List String :=
  ["Economic Analyst", "Tech Innovator", "Risk Manager", "Customer Advocate",
   "Sustainability Expert", "Implementation Strategist"]

/-- A shallow model of `asyncio.gather(*tasks)` under an adversarial
scheduler: `order` is the order in which the concurrently dispatched tasks
happen to complete (any list that visits every task index); each completion
deposits `(i, jobs[i] ())` into a completion log, and `gather` then reads
the results back in task-index order — which is what `asyncio.gather`
guarantees regardless of completion order. -/
def gatherSim {α : Type} [Inhabited α] (order : List Nat) (jobs : List (Unit → α)) :
    List α :=
  let finished : List (Nat × α) := order.map (fun i => (i, (jobs.getD i default) ()))
  (List.range jobs.length).map (fun i =>
    match finished.find? (fun p => p.1 = i) with
    | some p => p.2
    | none => default)

/-- `DebateEngine._run_round_async(topic, round_num, history)` of
`engine.py`: fan out one `get_agent_response` task per registry agent,
`asyncio.gather` them (modelled by `gatherSim` under completion order
`order`), then format `"Round n | name: response"` entries by task index.
`respond` models `AgentFactory.get_agent_response` (total: it catches
exceptions and returns an error string). -/
def run_round_sim (order : List Nat)
    (respond : String → String → Int → List String → String)
    (topic : String) (round_num : Int) (history : List String) : List String :=
  let agent_names := factoryAgentNames
  let responses :=
    gatherSim order (agent_names.map (fun nm => fun _ => respond nm topic round_num history))
  (agent_names.zip responses).map (fun p =>
    "Round " ++ toString round_num ++ " | " ++ p.1 ++ ": " ++ p.2)

-- ============= Per-agent prompt (agentfactory_updated.py) =============

/-- One entry of the `AgentFactory.agents` dict: role and perspective. -/
structure AFAgent where
  name : String
  role : String
  perspective : String
deriving DecidableEq, Repr

/-- The "Economic Analyst" entry of `AgentFactory.agents`. -/
def AF_Economic : AFAgent :=
  ⟨"Economic Analyst",
   "Economic and financial expert focusing on ROI, costs, and market trends",
   "Analyze from a financial and economic perspective"⟩

/-- The context block of `AgentFactory.get_agent_response`: when the history
is non-empty, only the last 10 entries (`history[-10:]`) are included. -/
def af_context (history : List String) : String :=
  if history = [] then ""
  else "\n\nPrevious discussion:\n" ++ pyJoin "\n" (lastN history 10)

/-- The prompt string built by `AgentFactory.get_agent_response`. -/
def af_prompt (agent_name : String) (info : AFAgent) (topic : String)
    (round_num : Int) (history : List String) : String :=
  "You are " ++ agent_name ++ ", a " ++ info.role ++ ".\n\nDebate Topic: " ++ topic ++
    "\n\nRound: " ++ toString round_num ++ " of 3\n\nYour perspective: " ++
    info.perspective ++ "\n" ++ af_context history ++
    "\n\nProvide your analysis and argument (2-3 paragraphs, be concise and specific). Consider what others have said and build upon or challenge their points."

-- ============= Pure characterization of the uncancelled run =============

/-- What the agent loop contributes when the cancellation flag is never
observed: the events emitted and the responses collected, threading the
growing `agent_responses` exactly as the loop does. -/
def pureAgents (g : Gateway) : List Agent → DebateState → List Event × List AgentResponse
  | [], _ => ([], [])
  | a :: rest, st =>
    match agent_node g false st a with
    | [] =>
        let p := pureAgents g rest st
        (Event.agent_start a.name st.current_round :: p.1, p.2)
    | r :: _ =>
        let p := pureAgents g rest { st with agent_responses := st.agent_responses ++ [r] }
        (Event.agent_start a.name st.current_round :: Event.agent_response r :: p.1,
         r :: p.2)

/-- One uncancelled round: events and resulting state. -/
def pureRound (g : Gateway) (st : DebateState) (rn : Int) : List Event × DebateState :=
  let s1 : DebateState := { st with current_round := rn, agent_responses := [] }
  let p := pureAgents g AGENTS s1
  (Event.round_start rn :: (p.1 ++ [Event.round_complete rn]),
   round_coordinator { s1 with agent_responses := p.2 })

/-- The uncancelled round loop: events and final state. -/
def pureRounds (g : Gateway) : List Int → DebateState → List Event × DebateState
  | [], st => ([], st)
  | rn :: rest, st =>
      let p := pureRound g st rn
      let q := pureRounds g rest p.2
      (p.1 ++ q.1, q.2)

@[simp] lemma cancelRead_none (k : Nat) : cancelRead none k = false := rfl

lemma runAgents_none (g : Gateway) (l : List Agent) (f : DFlow) (h : f.halt = false) :
    runAgents g none l f =
      ⟨f.evs ++ (pureAgents g l f.st).1,
       { f.st with agent_responses := f.st.agent_responses ++ (pureAgents g l f.st).2 },
       f.k + 2 * l.length, false⟩ := by
  induction l generalizing f with
  | nil =>
      obtain ⟨evs, st, k, halt⟩ := f
      simp at h
      subst h
      simp [runAgents, pureAgents]
  | cons a rest ih =>
      obtain ⟨evs, st, k, halt⟩ := f
      simp at h
      subst h
      simp only [runAgents, cancelRead_none, Bool.false_eq_true, if_false]
      cases hrs : agent_node g false st a with
      | nil =>
          simp only [pureAgents, hrs]
          rw [ih _ rfl]
          simp [List.append_assoc]
          ring
      | cons r tl =>
          simp only [pureAgents, hrs]
          rw [ih _ rfl]
          simp [List.append_assoc]
          ring

lemma runRounds_none (g : Gateway) (l : List Int) (f : DFlow) (h : f.halt = false) :
    runRounds g none l f =
      ⟨f.evs ++ (pureRounds g l f.st).1, (pureRounds g l f.st).2,
       f.k + l.length * (1 + 2 * AGENTS.length), false⟩ := by
  induction l generalizing f with
  | nil =>
      obtain ⟨evs, st, k, halt⟩ := f
      simp at h
      subst h
      simp [runRounds, pureRounds]
  | cons rn rest ih =>
      obtain ⟨evs, st, k, halt⟩ := f
      simp at h
      subst h
      simp only [runRounds, cancelRead_none, Bool.false_eq_true, if_false]
      rw [runAgents_none _ _ _ rfl]
      simp only
      rw [ih _ rfl]
      simp only [pureRounds, pureRound]
      simp [List.append_assoc]
      ring

lemma run_debate_none (g : Gateway) (topic : String) (n : Int) :
    run_debate g none topic n =
      ⟨[Event.start topic n] ++ (pureRounds g (roundNums n) (initState topic n)).1 ++
         [Event.synthesis_start,
          Event.synthesis (synthesizer_node g (pureRounds g (roundNums n) (initState topic n)).2).1
            (synthesizer_node g (pureRounds g (roundNums n) (initState topic n)).2).2,
          Event.complete],
       { (pureRounds g (roundNums n) (initState topic n)).2 with
         synthesis := (synthesizer_node g (pureRounds g (roundNums n) (initState topic n)).2).1
         verdict := (synthesizer_node g (pureRounds g (roundNums n) (initState topic n)).2).2 },
       (roundNums n).length * (1 + 2 * AGENTS.length) + 1, false⟩ := by
  simp only [run_debate]
  rw [runRounds_none _ _ _ rfl]
  simp [List.append_assoc]

lemma pureAgents_total (g : Gateway) (hg : ∀ p, (g p).isSome) (l : List Agent)
    (st : DebateState) :
    (pureAgents g l st).2.map (fun r => r.agent) = l.map Agent.name ∧
    (pureAgents g l st).1.map etype =
      (l.map (fun _ => ["agent_start", "agent_response"])).flatten := by
  induction l generalizing st with
  | nil => simp [pureAgents]
  | cons a rest ih =>
      obtain ⟨t, ht⟩ := Option.isSome_iff_exists.mp (hg (create_agent_prompt a st))
      have hrs : agent_node g false st a =
          [{ agent := a.name, round := st.current_round, stance := classify_stance t,
             arguments := [], response := pyStrip t }] := by
        simp [agent_node, ht]
      simp [pureAgents, hrs, etype, ih]

lemma pureAgents_etypes (g : Gateway) (l : List Agent) (st : DebateState) :
    ∀ e ∈ (pureAgents g l st).1, etype e = "agent_start" ∨ etype e = "agent_response" := by
  induction l generalizing st with
  | nil => simp [pureAgents]
  | cons a rest ih =>
      cases hrs : agent_node g false st a with
      | nil =>
          simp only [pureAgents, hrs]
          intro e he
          rcases List.mem_cons.mp he with rfl | he2
          · exact Or.inl rfl
          · exact ih _ e he2
      | cons r tl =>
          simp only [pureAgents, hrs]
          intro e he
          rcases List.mem_cons.mp he with rfl | he2
          · exact Or.inl rfl
          · rcases List.mem_cons.mp he2 with rfl | he3
            · exact Or.inr rfl
            · exact ih _ e he3

lemma pureAgents_agent_ne (g : Gateway) (nm : String) (l : List Agent)
    (hno : ∀ a ∈ l, a.name = nm → ∀ s, g (create_agent_prompt a s) = none) :
    ∀ (st : DebateState), ∀ r ∈ (pureAgents g l st).2, r.agent ≠ nm := by
  induction l with
  | nil => intro st; simp [pureAgents]
  | cons a rest ih =>
      intro st r hr
      have hrest : ∀ b ∈ rest, b.name = nm → ∀ s, g (create_agent_prompt b s) = none :=
        fun b hb => hno b (List.mem_cons_of_mem a hb)
      by_cases ha : a.name = nm
      · have hfail : agent_node g false st a = [] := by
          simp [agent_node, hno a (List.mem_cons_self a rest) ha st]
        rw [pureAgents, hfail] at hr
        exact ih hrest st r hr
      · cases hrs : agent_node g false st a with
        | nil =>
            rw [pureAgents, hrs] at hr
            exact ih hrest st r hr
        | cons r0 tl =>
            rw [pureAgents, hrs] at hr
            rcases List.mem_cons.mp hr with rfl | hr2
            · have : r.agent = a.name := by
                rcases hgp : g (create_agent_prompt a st) with _ | t
                · simp [agent_node, hgp] at hrs
                · simp [agent_node, hgp] at hrs
                  rw [← hrs.1]
              rw [this]
              exact ha
            · exact ih hrest _ r hr2

lemma round_coordinator_all_rounds (s : DebateState) :
    (round_coordinator s).all_rounds =
      if s.agent_responses = [] then s.all_rounds
      else s.all_rounds ++ [s.agent_responses] := by
  by_cases h : s.agent_responses = []
  · simp [round_coordinator, h]
  · simp only [round_coordinator, h, if_false]
    split <;> simp

lemma pureRounds_records (g : Gateway) (Q : List AgentResponse → Prop)
    (hQ : ∀ st : DebateState, (pureAgents g AGENTS st).2 ≠ [] →
      Q (pureAgents g AGENTS st).2) :
    ∀ (l : List Int) (st : DebateState), (∀ rec ∈ st.all_rounds, Q rec) →
      ∀ rec ∈ (pureRounds g l st).2.all_rounds, Q rec := by
  intro l
  induction l with
  | nil => intro st hst; simpa [pureRounds] using hst
  | cons rn rest ih =>
      intro st hst
      simp only [pureRounds]
      apply ih
      intro rec hrec
      simp only [pureRound] at hrec
      rw [round_coordinator_all_rounds] at hrec
      by_cases hempty :
          (pureAgents g AGENTS { st with current_round := rn, agent_responses := [] }).2 = []
      · simp [hempty] at hrec
        exact hst rec hrec
      · simp [hempty] at hrec
        rcases hrec with hrec | rfl
        · exact hst rec hrec
        · exact hQ _ hempty

lemma runAgents_window (g : Gateway) (m : Nat) (l : List Agent) (f : DFlow)
    (h : f.halt = false) (hw : f.k + 2 * l.length ≤ m) :
    runAgents g (some m) l f = runAgents g none l f := by
  induction l generalizing f with
  | nil => simp [runAgents]
  | cons a rest ih =>
      obtain ⟨evs, st, k, halt⟩ := f
      simp at h
      subst h
      have hw' : k + 2 * (rest.length + 1) ≤ m := by simpa using hw
      have h1 : cancelRead (some m) k = false := by
        simp [cancelRead]
        omega
      have h2 : cancelRead (some m) (k + 1) = false := by
        simp [cancelRead]
        omega
      simp only [runAgents, h1, h2, cancelRead_none, Bool.false_eq_true, if_false]
      cases hrs : agent_node g false st a with
      | nil => exact ih _ rfl (by simp; omega)
      | cons r tl => exact ih _ rfl (by simp; omega)

lemma runRounds_window (g : Gateway) (m : Nat) (l : List Int) (f : DFlow)
    (h : f.halt = false) (hw : f.k + l.length * (1 + 2 * AGENTS.length) ≤ m) :
    runRounds g (some m) l f = runRounds g none l f := by
  induction l generalizing f with
  | nil => simp [runRounds]
  | cons rn rest ih =>
      obtain ⟨evs, st, k, halt⟩ := f
      simp at h
      subst h
      have hA : AGENTS.length = 6 := rfl
      have hw' : k + (rest.length + 1) * 13 ≤ m := by
        rw [hA] at hw
        simpa using hw
      have h1 : cancelRead (some m) k = false := by
        simp [cancelRead]
        omega
      simp only [runRounds, h1, cancelRead_none, Bool.false_eq_true, if_false]
      rw [runAgents_window g m _ _ rfl (by simp [hA]; omega)]
      rw [runAgents_none _ _ _ rfl]
      simp only
      exact ih _ rfl (by simp [hA]; omega)

/-- Invariant tying the `cancelled` event to early generator return: a halted
flow ends in `cancelled`, an unhalted one contains no `cancelled`. -/
def GoodDF (f : DFlow) : Prop :=
  (f.halt = true → f.evs.getLast? = some Event.cancelled) ∧
  (f.halt = false → Event.cancelled ∉ f.evs)

lemma runAgents_good (g : Gateway) (c : Option Nat) (l : List Agent) :
    ∀ f : DFlow, GoodDF f → GoodDF (runAgents g c l f) := by
  induction l with
  | nil => intro f hf; simpa [runAgents] using hf
  | cons a rest ih =>
      intro f hf
      obtain ⟨evs, st, k, halt⟩ := f
      cases halt with
      | true => simpa [runAgents] using hf
      | false =>
          have hnc : Event.cancelled ∉ evs := hf.2 rfl
          cases hflag : cancelRead c k with
          | true =>
              simp only [runAgents, hflag, if_true, Bool.false_eq_true, if_false]
              exact ⟨fun _ => by simp, fun hcontra => by simp at hcontra⟩
          | false =>
              simp only [runAgents, hflag, Bool.false_eq_true, if_false]
              cases hrs : agent_node g (cancelRead c (k + 1)) st a with
              | nil =>
                  apply ih
                  exact ⟨fun hcontra => by simp at hcontra,
                         fun _ => by simp [hnc]⟩
              | cons r tl =>
                  apply ih
                  exact ⟨fun hcontra => by simp at hcontra,
                         fun _ => by simp [hnc]⟩

lemma runRounds_good (g : Gateway) (c : Option Nat) (l : List Int) :
    ∀ f : DFlow, GoodDF f → GoodDF (runRounds g c l f) := by
  induction l with
  | nil => intro f hf; simpa [runRounds] using hf
  | cons rn rest ih =>
      intro f hf
      obtain ⟨evs, st, k, halt⟩ := f
      cases halt with
      | true => simpa [runRounds] using hf
      | false =>
          have hnc : Event.cancelled ∉ evs := hf.2 rfl
          cases hflag : cancelRead c k with
          | true =>
              simp only [runRounds, hflag, if_true, Bool.false_eq_true, if_false]
              exact ⟨fun _ => by simp, fun hcontra => by simp at hcontra⟩
          | false =>
              simp only [runRounds, hflag, Bool.false_eq_true, if_false]
              have hf1 : GoodDF ⟨evs ++ [Event.round_start rn],
                  { st with current_round := rn, agent_responses := [] }, k + 1, false⟩ :=
                ⟨fun hcontra => by simp at hcontra, fun _ => by simp [hnc]⟩
              have hf2 := runAgents_good g c AGENTS _ hf1
              cases hhalt : (runAgents g c AGENTS ⟨evs ++ [Event.round_start rn],
                  { st with current_round := rn, agent_responses := [] }, k + 1, false⟩).halt with
              | true =>
                  simp only [hhalt, if_true]
                  exact hf2
              | false =>
                  simp only [hhalt, Bool.false_eq_true, if_false]
                  apply ih
                  have hnc2 := hf2.2 hhalt
                  exact ⟨fun hcontra => by simp at hcontra, fun _ => by simp [hnc2]⟩

lemma run_debate_cancelled_last (g : Gateway) (c : Option Nat) (topic : String) (n : Int) :
    Event.cancelled ∈ (run_debate g c topic n).evs →
      (run_debate g c topic n).evs.getLast? = some Event.cancelled := by
  have hf0 : GoodDF ⟨[Event.start topic n], initState topic n, 0, false⟩ :=
    ⟨fun hcontra => by simp at hcontra, fun _ => by simp⟩
  have hf1 := runRounds_good g c (roundNums n) _ hf0
  intro hmem
  simp only [run_debate] at hmem ⊢
  cases hhalt : (runRounds g c (roundNums n)
      ⟨[Event.start topic n], initState topic n, 0, false⟩).halt with
  | true =>
      simp only [hhalt, if_true] at hmem ⊢
      exact hf1.1 hhalt
  | false =>
      exfalso
      have hnc := hf1.2 hhalt
      simp only [hhalt, Bool.false_eq_true, if_false] at hmem
      cases hflag : cancelRead c (runRounds g c (roundNums n)
          ⟨[Event.start topic n], initState topic n, 0, false⟩).k with
      | true =>
          simp only [hflag, if_true] at hmem
          rcases List.mem_append.mp hmem with h | h
          · exact hnc h
          · simp at h
      | false =>
          simp only [hflag, Bool.false_eq_true, if_false] at hmem
          rcases List.mem_append.mp hmem with h | h
          · rcases List.mem_append.mp h with h2 | h2
            · exact hnc h2
            · simp at h2
          · simp at h

lemma roundNums_two (n : Int) (hn : 2 ≤ n) :
    ∃ rest, roundNums n = (1 : Int) :: 2 :: rest := by
  obtain ⟨k, hk⟩ : ∃ k, n.toNat = k + 2 := ⟨n.toNat - 2, by omega⟩
  refine ⟨(List.range k).map (fun i => Int.ofNat i + 3), ?_⟩
  rw [roundNums, hk, List.range_succ_eq_map, List.range_succ_eq_map,
     List.map_cons, List.map_map, List.map_cons, List.map_map]
  simp only [List.cons.injEq]
  refine ⟨by norm_num, by norm_num [Function.comp], ?_⟩
  apply List.map_congr_left
  intro i _
  simp only [Function.comp, Int.ofNat_eq_coe]
  push_cast
  ring

lemma pureRounds_etypes (g : Gateway) (l : List Int) (st : DebateState) :
    ∀ e ∈ (pureRounds g l st).1,
      etype e = "round_start" ∨ etype e = "agent_start" ∨ etype e = "agent_response" ∨
        etype e = "round_complete" := by
  induction l generalizing st with
  | nil => simp [pureRounds]
  | cons rn rest ih =>
      simp only [pureRounds, pureRound]
      intro e he
      rcases List.mem_append.mp he with h | h
      · rcases List.mem_cons.mp h with rfl | h2
        · exact Or.inl rfl
        · rcases List.mem_append.mp h2 with h3 | h3
          · rcases pureAgents_etypes g AGENTS _ e h3 with h4 | h4
            · exact Or.inr (Or.inl h4)
            · exact Or.inr (Or.inr (Or.inl h4))
          · have : e = Event.round_complete rn := by simpa using h3
            subst this
            exact Or.inr (Or.inr (Or.inr rfl))
      · exact ih _ e h

/-- Evaluation of the run when the cancellation flag is first observed at the
13th read — the read performed by the round-2 loop guard, i.e. `cancel()`
lands after round 1 completed and before round 2 starts (round 1 performs
reads 0..12: one loop-guard read plus two reads per agent). -/
lemma run_debate_cancel_before_round_two (g : Gateway) (topic : String) (n : Int)
    (hn : 2 ≤ n) :
    (run_debate g (some 13) topic n).evs =
      [Event.start topic n, Event.round_start 1] ++
        (pureAgents g AGENTS (initState topic n)).1 ++
        [Event.round_complete 1, Event.cancelled] := by
  obtain ⟨rest, hr⟩ := roundNums_two n hn
  have hc0 : cancelRead (some 13) 0 = false := rfl
  have hc13 : cancelRead (some 13) (1 + 2 * AGENTS.length) = true := rfl
  have hA : (1 : Nat) + 2 * AGENTS.length ≤ 13 := by decide
  simp only [run_debate, hr, runRounds, hc0, Bool.false_eq_true, if_false]
  rw [runAgents_window g 13 AGENTS _ rfl (by simpa using hA)]
  rw [runAgents_none _ _ _ rfl]
  simp only [hc13, if_true]
  have hs : ({ initState topic n with current_round := (1 : Int), agent_responses := [] }
      : DebateState) = initState topic n := rfl
  simp [hs, List.append_assoc]

/-- Evaluation of the run when the cancellation flag is first observed at the
read performed by the `if not debate_cancelled` synthesis guard — i.e.
`cancel()` lands after the final round completed: synthesis is skipped but
the generator still yields `complete`. -/
lemma run_debate_cancel_at_synthesis (g : Gateway) (topic : String) (n : Int) :
    (run_debate g (some ((roundNums n).length * (1 + 2 * AGENTS.length))) topic n).evs =
      [Event.start topic n] ++ (pureRounds g (roundNums n) (initState topic n)).1 ++
        [Event.complete] := by
  simp only [run_debate]
  rw [runRounds_window g _ _ _ rfl (by simp)]
  rw [runRounds_none _ _ _ rfl]
  have hguard : cancelRead
      (some ((roundNums n).length * (1 + 2 * AGENTS.length)))
      ((0 : Nat) + (roundNums n).length * (1 + 2 * AGENTS.length)) = true := by
    simp [cancelRead]
  simp only [hguard, if_true, Bool.false_eq_true, if_false]

-- ============= Substring lemmas for the context builders =============

lemma str_data_append (s t : String) : (s ++ t).data = s.data ++ t.data := rfl

lemma foldl_append_pre (l : List String) :
    ∀ acc : String, acc.data <+: (l.foldl (fun a s => a ++ s) acc).data := by
  induction l with
  | nil => intro acc; exact List.prefix_rfl
  | cons x xs ih =>
      intro acc
      exact List.IsPrefix.trans ⟨x.data, rfl⟩ (ih (acc ++ x))

lemma mem_foldl_sub (e : String) (l : List String) (he : e ∈ l) :
    ∀ acc : String, e.data <:+: (l.foldl (fun a s => a ++ s) acc).data := by
  induction l with
  | nil => cases he
  | cons x xs ih =>
      intro acc
      rcases List.mem_cons.mp he with rfl | h2
      · exact (List.IsSuffix.isInfix ⟨acc.data, rfl⟩).trans
          (foldl_append_pre xs (acc ++ e)).isInfix
      · exact ih h2 (acc ++ x)

lemma sub_strJoin (e : String) (l : List String) (he : e ∈ l) :
    e.data <:+: (String.join l).data :=
  mem_foldl_sub e l he ""

lemma foldl_sep_pre (sep : String) (l : List String) :
    ∀ acc : String, acc.data <+: (l.foldl (fun a y => a ++ sep ++ y) acc).data := by
  induction l with
  | nil => intro acc; exact List.prefix_rfl
  | cons x xs ih =>
      intro acc
      refine List.IsPrefix.trans ?_ (ih (acc ++ sep ++ x))
      exact ⟨sep.data ++ x.data, by simp⟩

lemma mem_foldl_sep_sub (e sep : String) (l : List String) (he : e ∈ l) :
    ∀ acc : String, e.data <:+: (l.foldl (fun a y => a ++ sep ++ y) acc).data := by
  induction l with
  | nil => cases he
  | cons x xs ih =>
      intro acc
      rcases List.mem_cons.mp he with rfl | h2
      · exact (List.IsSuffix.isInfix ⟨acc.data ++ sep.data, by simp⟩).trans
          (foldl_sep_pre sep xs (acc ++ sep ++ e)).isInfix
      · exact ih h2 (acc ++ sep ++ x)

lemma sub_pyJoin (e sep : String) (l : List String) (he : e ∈ l) :
    e.data <:+: (pyJoin sep l).data := by
  cases l with
  | nil => cases he
  | cons x xs =>
      rcases List.mem_cons.mp he with rfl | h2
      · exact (foldl_sep_pre sep xs e).isInfix
      · exact mem_foldl_sep_sub e sep xs h2 x

lemma create_agent_prompt_contains (a : Agent) (s : DebateState)
    (h1 : 1 < s.current_round) (rnd : List AgentResponse) (hrnd : rnd ∈ s.all_rounds)
    (r : AgentResponse) (hr : r ∈ rnd) :
    (respLine r).data <:+: (create_agent_prompt a s).data := by
  have hne : s.all_rounds ≠ [] := by
    intro h
    rw [h] at hrnd
    cases hrnd
  have hrne : rnd ≠ [] := by
    intro h
    rw [h] at hr
    cases hr
  obtain ⟨i, hi⟩ := List.mem_iff_getElem?.mp hrnd
  have henum : (i, rnd) ∈ s.all_rounds.enum := List.mk_mem_enum_iff_getElem?.mpr hi
  have h2 : (respLine r).data <:+: (String.join (rnd.map respLine)).data :=
    sub_strJoin _ _ (List.mem_map_of_mem respLine hr)
  have h3 : (respLine r).data <:+: (prevRoundBlock (i + 1) rnd).data := by
    rw [prevRoundBlock, if_neg hrne]
    exact h2.trans ⟨("\n--- Round " ++ toString (i + 1) ++ " ---\n" : String).data, [], by simp⟩
  have h4a : (prevRoundBlock (i + 1) rnd).data <:+:
      (String.join (s.all_rounds.enum.map (fun p => prevRoundBlock (p.1 + 1) p.2))).data :=
    sub_strJoin _ _ (List.mem_map_of_mem _ henum)
  have h4 : (respLine r).data <:+: (prevSection s.all_rounds).data := by
    rw [prevSection]
    exact (h3.trans h4a).trans
      ⟨("\n=== PREVIOUS DISCUSSIONS ===\n" : String).data, [], by simp [str_data_append]⟩
  rw [create_agent_prompt, if_pos (⟨h1, hne⟩ : 1 < s.current_round ∧ s.all_rounds ≠ [])]
  refine h4.trans ?_
  refine ⟨(a.system_prompt ++ "\n\nDEBATE TOPIC: " ++ s.topic ++ "\nCURRENT ROUND: " ++
      toString s.current_round ++ " of " ++ toString s.max_rounds ++ "\n\n").data,
    ((if s.agent_responses ≠ [] then
        "\n=== CURRENT ROUND (so far) ===\n" ++ String.join (List.map respLine s.agent_responses)
      else "") ++
     (if s.current_round = 1 then taskRound1
      else if s.current_round = 2 then taskRound2 else taskRoundFinal)).data, ?_⟩
  simp [str_data_append, List.append_assoc]

lemma af_prompt_contains (nm : String) (info : AFAgent) (topic : String) (rn : Int)
    (history : List String) (e : String) (he : e ∈ lastN history 10) :
    e.data <:+: (af_prompt nm info topic rn history).data := by
  have hne : history ≠ [] := by
    intro h
    rw [h] at he
    simp [lastN] at he
  have h1 : e.data <:+: (pyJoin "\n" (lastN history 10)).data := sub_pyJoin e _ _ he
  have h2 : e.data <:+: (af_context history).data := by
    rw [af_context, if_neg hne]
    exact h1.trans ⟨("\n\nPrevious discussion:\n" : String).data, [], by simp [str_data_append]⟩
  rw [af_prompt]
  refine h2.trans
    ⟨("You are " ++ nm ++ ", a " ++ info.role ++ ".\n\nDebate Topic: " ++ topic ++
        "\n\nRound: " ++ toString rn ++ " of 3\n\nYour perspective: " ++
        info.perspective ++ "\n").data,
     ("\n\nProvide your analysis and argument (2-3 paragraphs, be concise and specific). Consider what others have said and build upon or challenge their points." : String).data,
     by simp [str_data_append, List.append_assoc]⟩

-- ============= Helpers for event counting and gather simulation =============

lemma count_flatten_replicate {α : Type} [DecidableEq α] (m : Nat) (pat : List α) (x : α) :
    ((List.replicate m pat).flatten).count x = m * pat.count x := by
  induction m with
  | zero => simp
  | succ k ih => simp [List.replicate_succ, ih, Nat.succ_mul, Nat.add_comm]

lemma find?_map_key {α : Type} (ord : List Nat) (F : Nat → α) (i : Nat) (hi : i ∈ ord) :
    (ord.map (fun j => (j, F j))).find? (fun p => p.1 = i) = some (i, F i) := by
  induction ord with
  | nil => cases hi
  | cons j tl ih =>
      rcases List.mem_cons.mp hi with rfl | h2
      · simp [List.find?]
      · by_cases hji : j = i
        · subst hji
          simp [List.find?]
        · have hd : decide (j = i) = false := by simp [hji]
          simp only [List.map_cons, List.find?, hd]
          exact ih h2

lemma getLast?_cons_append_three {α : Type} (x a b c : α) (l : List α) :
    (x :: (l ++ [a, b, c])).getLast? = some c := by
  rw [← List.cons_append, show ([a, b, c] : List α) = [a, b] ++ [c] from rfl,
    ← List.append_assoc]
  exact List.getLast?_concat _

-- ============= Mocked gateways used by concrete instances =============

/-- A mocked gateway that always succeeds with the text "ok". -/
def gwOk : Gateway := fun _ => some "ok"

/-- A mocked gateway whose every invocation fails. -/
def gwFail : Gateway := fun _ => none

/-- A mocked gateway that always succeeds with a supportive text. -/
def gwSupport : Gateway := fun _ => some "I support this plan."

/-- The four verdict strings of the source. -/
def verdictStrings : List String :=
  ["APPROVED", "REJECTED", "CONDITIONAL APPROVAL", "UNDER REVIEW"]

-- ============= Claims =============

/-- Claim C1, counterexample: a synthesis text containing "approve with
modifications" is classified APPROVED, not CONDITIONAL APPROVAL — the
approve-group is scanned first and "approve" matches, so the modify-group is
never consulted.  This refutes the claim's third example. -/
theorem verdict_modifications_cx :
    classify_verdict "approve with modifications" = "APPROVED" ∧
    classify_verdict "approve with modifications" ≠ "CONDITIONAL APPROVAL" := by
  decide

/-- Claim C1, amended: verdict classification scans the lower-cased synthesis
output for keyword groups in fixed priority order (approve-group "approve"/
"proceed", then reject-group "reject"/"decline", then modify-group "modify"/
"conditional"), first group match wins, no match yields UNDER REVIEW;
"we recommend you approve this plan" yields APPROVED, "this should be
rejected" yields REJECTED, and "approve with modifications" yields APPROVED
(the approve-group priority wins over the modify-group, so the outcome is
Approved rather than ConditionalApproval). -/
theorem verdict_keyword_priority :
    (∀ t, (containsSub (pyLower t) "approve" || containsSub (pyLower t) "proceed") = true →
        classify_verdict t = "APPROVED") ∧
    (∀ t, (containsSub (pyLower t) "approve" || containsSub (pyLower t) "proceed") = false →
        (containsSub (pyLower t) "reject" || containsSub (pyLower t) "decline") = true →
        classify_verdict t = "REJECTED") ∧
    (∀ t, (containsSub (pyLower t) "approve" || containsSub (pyLower t) "proceed") = false →
        (containsSub (pyLower t) "reject" || containsSub (pyLower t) "decline") = false →
        (containsSub (pyLower t) "modify" || containsSub (pyLower t) "conditional") = true →
        classify_verdict t = "CONDITIONAL APPROVAL") ∧
    (∀ t, (containsSub (pyLower t) "approve" || containsSub (pyLower t) "proceed") = false →
        (containsSub (pyLower t) "reject" || containsSub (pyLower t) "decline") = false →
        (containsSub (pyLower t) "modify" || containsSub (pyLower t) "conditional") = false →
        classify_verdict t = "UNDER REVIEW") ∧
    classify_verdict "we recommend you approve this plan" = "APPROVED" ∧
    classify_verdict "this should be rejected" = "REJECTED" ∧
    classify_verdict "approve with modifications" = "APPROVED" := by
  refine ⟨?_, ?_, ?_, ?_, by decide, by decide, by decide⟩
  · intro t h1
    simp [classify_verdict, h1]
  · intro t h1 h2
    simp [classify_verdict, h1, h2]
  · intro t h1 h2 h3
    simp [classify_verdict, h1, h2, h3]
  · intro t h1 h2 h3
    simp [classify_verdict, h1, h2, h3]

/-- Witness for C1's theorem at the concrete text "please proceed". -/
theorem verdict_keyword_priority_w :
    (containsSub (pyLower "please proceed") "approve" ||
      containsSub (pyLower "please proceed") "proceed") = true ∧
    classify_verdict "please proceed" = "APPROVED" :=
  ⟨by decide, verdict_keyword_priority.1 "please proceed" (by decide)⟩

/-- Claim C3, counterexample: on synthesizer gateway failure the code
returns verdict "Unable to generate verdict" — not UNDER REVIEW and not any
of the four verdict strings. -/
theorem synthesizer_failure_cx :
    synthesizer_node gwFail (initState "t" 3) =
      ("Synthesis unavailable", "Unable to generate verdict") ∧
    "Unable to generate verdict" ∉ verdictStrings := by
  decide

/-- Claim C3, amended: on gateway failure `synthesize` returns the sentinel
text "Synthesis unavailable" paired with the verdict string "Unable to
generate verdict" (a fifth value outside the four-verdict set) and never
raises; on success the verdict is always one of APPROVED / REJECTED /
CONDITIONAL APPROVAL / UNDER REVIEW; the verdict field is never absent —
it is always one of those five strings. -/
theorem synthesizer_failure_handling (g : Gateway) (s : DebateState) :
    (g (synthPrompt s) = none →
      synthesizer_node g s = ("Synthesis unavailable", "Unable to generate verdict")) ∧
    (∀ t, g (synthPrompt s) = some t →
      synthesizer_node g s = (pyStrip t, classify_verdict t) ∧
      classify_verdict t ∈ verdictStrings) ∧
    ((synthesizer_node g s).2 = "Unable to generate verdict" ∨
      (synthesizer_node g s).2 ∈ verdictStrings) := by
  have hmem : ∀ t, classify_verdict t ∈ verdictStrings := by
    intro t
    simp only [classify_verdict, verdictStrings]
    split_ifs <;> simp
  refine ⟨?_, ?_, ?_⟩
  · intro h
    simp [synthesizer_node, h]
  · intro t h
    exact ⟨by simp [synthesizer_node, h], hmem t⟩
  · cases hg : g (synthPrompt s) with
    | none => exact Or.inl (by simp [synthesizer_node, hg])
    | some t =>
        refine Or.inr ?_
        have : (synthesizer_node g s).2 = classify_verdict t := by
          simp [synthesizer_node, hg]
        rw [this]
        exact hmem t

/-- Witness for C3's theorem: the failure branch at a concrete state. -/
theorem synthesizer_failure_handling_w :
    synthesizer_node gwFail (initState "t" 3) =
      ("Synthesis unavailable", "Unable to generate verdict") :=
  (synthesizer_failure_handling gwFail (initState "t" 3)).1 rfl

/-- Claim C6, confirmed: on a successful gateway call the Agent Runner
stores the full response text (here: any text that carries no surrounding
whitespace, since the source stores `response.strip()`), classifies stance
by scanning only the first 200 characters of the lower-cased text —
support-keywords first, then oppose-keywords, default Neutral — and tags
the record with the agent name and current round. -/
theorem agent_runner_stance (g : Gateway) (s : DebateState) (a : Agent) (t : String)
    (h1 : g (create_agent_prompt a s) = some t) (h2 : pyStrip t = t) :
    agent_node g false s a =
      [{ agent := a.name, round := s.current_round, stance := classify_stance t,
         arguments := [], response := t }] ∧
    (∀ u v, pyTake (pyLower u) 200 = pyTake (pyLower v) 200 →
      classify_stance u = classify_stance v) ∧
    (supportWords.any (fun w => containsSub (pyTake (pyLower t) 200) w) = true →
      classify_stance t = "Support") ∧
    (supportWords.any (fun w => containsSub (pyTake (pyLower t) 200) w) = false →
      opposeWords.any (fun w => containsSub (pyTake (pyLower t) 200) w) = true →
      classify_stance t = "Oppose") ∧
    (supportWords.any (fun w => containsSub (pyTake (pyLower t) 200) w) = false →
      opposeWords.any (fun w => containsSub (pyTake (pyLower t) 200) w) = false →
      classify_stance t = "Neutral") := by
  refine ⟨by simp [agent_node, h1, h2], ?_, ?_, ?_, ?_⟩
  · intro u v h
    simp only [classify_stance]
    rw [h]
  · intro ha
    simp [classify_stance, ha]
  · intro ha hb
    simp [classify_stance, ha, hb]
  · intro ha hb
    simp [classify_stance, ha, hb]

/-- Witness for C6's theorem on a concrete supportive response. -/
theorem agent_runner_stance_w :
    agent_node gwSupport false (initState "T" 3) AG_Finance =
      [{ agent := "Finance", round := 1, stance := classify_stance "I support this plan.",
         arguments := [], response := "I support this plan." }] :=
  (agent_runner_stance gwSupport (initState "T" 3) AG_Finance "I support this plan."
    rfl (by decide)).1

/-- Claim C10, confirmed: `round_coordinator` appends a RoundRecord to
`all_rounds` only when at least one agent response was collected — an empty
`agent_responses` leaves the state unchanged — so the history can hold fewer
RoundRecords than rounds executed: with an always-failing gateway a 2-round
debate executes both rounds (round-start 2 is emitted, the run completes)
yet the final history is empty. -/
theorem round_record_append (s : DebateState) :
    ((round_coordinator s).all_rounds =
      if s.agent_responses = [] then s.all_rounds
      else s.all_rounds ++ [s.agent_responses]) ∧
    (s.agent_responses = [] → round_coordinator s = s) ∧
    ((run_debate gwFail none "t" 2).st.all_rounds = [] ∧
      Event.round_start 2 ∈ (run_debate gwFail none "t" 2).evs ∧
      (run_debate gwFail none "t" 2).evs.getLast? = some Event.complete) := by
  refine ⟨round_coordinator_all_rounds s, ?_, by decide⟩
  intro h
  simp [round_coordinator, h]

/-- Witness for C10's theorem: the unchanged-state branch at the initial
state (whose `agent_responses` list is empty). -/
theorem round_record_append_w :
    round_coordinator (initState "t" 3) = initState "t" 3 :=
  (round_record_append (initState "t" 3)).2.1 rfl

/-- Claim C2, confirmed: when the gateway fails on every prompt of the
"Finance" agent, the Agent Runner returns the empty contribution and never
raises (it is a total function), no RoundRecord of the run contains a
Finance entry, and the session still ends with the `complete` event and a
non-empty synthesis text (the synthesizer either succeeds — with a text
assumed non-blank — or falls back to the non-empty sentinel). -/
theorem agent_failure_isolated (g : Gateway) (topic : String) (n : Int)
    (h1 : ∀ s, g (create_agent_prompt AG_Finance s) = none)
    (h2 : ∀ s t, g (synthPrompt s) = some t → pyStrip t ≠ "") :
    (∀ (cflag : Bool) (s : DebateState), agent_node g cflag s AG_Finance = []) ∧
    (∀ rec ∈ (run_debate g none topic n).st.all_rounds, ∀ r ∈ rec, r.agent ≠ "Finance") ∧
    (run_debate g none topic n).evs.getLast? = some Event.complete ∧
    (run_debate g none topic n).st.synthesis ≠ "" := by
  have hno : ∀ a ∈ AGENTS, a.name = "Finance" →
      ∀ s, g (create_agent_prompt a s) = none := by
    intro a ha hname s'
    fin_cases ha
    · exact h1 s'
    · exact absurd hname (by decide)
    · exact absurd hname (by decide)
    · exact absurd hname (by decide)
    · exact absurd hname (by decide)
    · exact absurd hname (by decide)
  refine ⟨?_, ?_, ?_, ?_⟩
  · intro cflag s
    cases cflag
    · simp [agent_node, h1 s]
    · simp [agent_node]
  · rw [run_debate_none]
    intro rec hrec r hr
    simp only at hrec
    exact pureRounds_records g (fun rec => ∀ r ∈ rec, r.agent ≠ "Finance")
      (fun st _ => pureAgents_agent_ne g "Finance" AGENTS hno st)
      (roundNums n) (initState topic n) (by simp [initState]) rec hrec r hr
  · rw [run_debate_none]
    simp only [List.singleton_append]
    exact getLast?_cons_append_three _ _ _ _ _
  · rw [run_debate_none]
    simp only
    cases hg : g (synthPrompt (pureRounds g (roundNums n) (initState topic n)).2) with
    | none => simp [synthesizer_node, hg]
    | some t =>
        simp [synthesizer_node, hg]
        exact h2 _ t hg

/-- Witness for C2's theorem with the always-failing mocked gateway. -/
theorem agent_failure_isolated_w :
    (run_debate gwFail none "t" 2).evs.getLast? = some Event.complete ∧
    (run_debate gwFail none "t" 2).st.synthesis ≠ "" :=
  ⟨(agent_failure_isolated gwFail "t" 2 (fun _ => rfl)
      (fun _ _ h => Option.noConfusion h)).2.2.1,
   (agent_failure_isolated gwFail "t" 2 (fun _ => rfl)
      (fun _ _ h => Option.noConfusion h)).2.2.2⟩

/-- The per-round event-type pattern of a fully successful round. -/
lemma pureRounds_etype_shape (g : Gateway) (hg : ∀ p, (g p).isSome) (l : List Int)
    (st : DebateState) :
    (pureRounds g l st).1.map etype =
      (List.replicate l.length
        ("round_start" ::
          ((AGENTS.map (fun _ => ["agent_start", "agent_response"])).flatten ++
            ["round_complete"]))).flatten := by
  induction l generalizing st with
  | nil => simp [pureRounds]
  | cons rn rest ih =>
      simp [pureRounds, pureRound, List.replicate_succ,
        (pureAgents_total g hg AGENTS _).2, ih, etype]

/-- Claim C5, confirmed: with a gateway that succeeds on every call and no
cancellation, the event stream is exactly `start`, then per round a
`round_start`, per agent an `agent_start`/`agent_response` pair, and a
`round_complete`, then `synthesis_start`, `synthesis`, `complete`; the
number of `round_start`/`round_complete` pairs equals `maxRounds`. -/
theorem event_sequence_shape (g : Gateway) (topic : String) (n : Int)
    (hg : ∀ p, (g p).isSome) (hn : 1 ≤ n) :
    (run_debate g none topic n).evs.map etype =
      ["start"] ++
        (List.replicate (roundNums n).length
          ("round_start" ::
            ((AGENTS.map (fun _ => ["agent_start", "agent_response"])).flatten ++
              ["round_complete"]))).flatten ++
      ["synthesis_start", "synthesis", "complete"] ∧
    (roundNums n).length = n.toNat ∧
    ((n.toNat : Int) = n) ∧
    ((run_debate g none topic n).evs.map etype).count "round_start" = n.toNat ∧
    ((run_debate g none topic n).evs.map etype).count "round_complete" = n.toNat := by
  have hlen : (roundNums n).length = n.toNat := by simp [roundNums]
  have hshape : (run_debate g none topic n).evs.map etype =
      ["start"] ++
        (List.replicate (roundNums n).length
          ("round_start" ::
            ((AGENTS.map (fun _ => ["agent_start", "agent_response"])).flatten ++
              ["round_complete"]))).flatten ++
      ["synthesis_start", "synthesis", "complete"] := by
    rw [run_debate_none]
    simp only [List.map_append]
    rw [pureRounds_etype_shape g hg]
    simp [etype, List.append_assoc]
  have hpat1 : (("round_start" ::
      ((AGENTS.map (fun _ => ["agent_start", "agent_response"])).flatten ++
        ["round_complete"])) : List String).count "round_start" = 1 := by decide
  have hpat2 : (("round_start" ::
      ((AGENTS.map (fun _ => ["agent_start", "agent_response"])).flatten ++
        ["round_complete"])) : List String).count "round_complete" = 1 := by decide
  refine ⟨hshape, hlen, by omega, ?_, ?_⟩
  · rw [hshape]
    simp [List.count_append, count_flatten_replicate, hpat1, hlen]
  · rw [hshape]
    simp [List.count_append, count_flatten_replicate, hpat2, hlen]

/-- Witness for C5's theorem with the always-succeeding mocked gateway. -/
theorem event_sequence_shape_w :
    ((run_debate gwOk none "t" 1).evs.map etype).count "round_start" = (1 : Int).toNat :=
  (event_sequence_shape gwOk "t" 1 (fun _ => rfl) (by decide)).2.2.2.1

/-- Claim C8, counterexample: a request with an empty topic and
`rounds = -1` is not rejected — the stream runs and produces start,
synthesis and complete events; and `rounds = 0` (invalid per the claim) is
silently replaced by the default 3 and a debate is run. -/
theorem session_no_validation_cx :
    (debate_stream gwOk none "" (some (-1))).evs =
      [Event.start "" (-1), Event.synthesis_start,
       Event.synthesis "ok" "UNDER REVIEW", Event.complete] ∧
    pyOrDefault (some 0) = 3 ∧
    (debate_stream gwOk none "t" (some 0)).evs.head? = some (Event.start "t" 3) := by
  decide

/-- Claim C8, amended: session creation performs no validation of
`maxRounds` or the topic: every request (empty topic and non-positive round
counts included) starts the streaming state machine, whose event stream
begins with `start` and reaches `complete`; `rounds = None` and the falsy
`rounds = 0` are silently replaced by the default 3, every other value —
negative ones included — is used as passed (negative values yield a run
with zero rounds that still emits start, synthesis and complete). -/
theorem session_no_validation (g : Gateway) (topic : String) (r : Option Int) :
    (debate_stream g none topic r).evs.head? =
      some (Event.start topic (pyOrDefault r)) ∧
    (debate_stream g none topic r).evs.getLast? = some Event.complete ∧
    pyOrDefault none = 3 ∧
    pyOrDefault (some 0) = 3 ∧
    (∀ z : Int, z ≠ 0 → pyOrDefault (some z) = z) := by
  refine ⟨?_, ?_, rfl, rfl, ?_⟩
  · simp only [debate_stream]
    rw [run_debate_none]
    simp
  · simp only [debate_stream]
    rw [run_debate_none]
    simp only [List.singleton_append]
    exact getLast?_cons_append_three _ _ _ _ _
  · intro z hz
    simp [pyOrDefault, hz]

/-- Witness for C8's theorem at the invalid request (`topic = "x"`,
`rounds = -1`). -/
theorem session_no_validation_w :
    pyOrDefault (some (-1)) = (-1 : Int) ∧
    (debate_stream gwOk none "x" (some (-1))).evs.head? =
      some (Event.start "x" (pyOrDefault (some (-1)))) :=
  ⟨(session_no_validation gwOk "x" (some (-1))).2.2.2.2 (-1) (by decide),
   (session_no_validation gwOk "x" (some (-1))).1⟩

lemma getLast?_cons_concat {α : Type} (x a : α) (l : List α) :
    (x :: (l ++ [a])).getLast? = some a := by
  rw [← List.cons_append]
  exact List.getLast?_concat _

lemma getLast?_append_two {α : Type} (a b : α) (l : List α) :
    (l ++ [a, b]).getLast? = some b := by
  rw [show ([a, b] : List α) = [a] ++ [b] from rfl, ← List.append_assoc]
  exact List.getLast?_concat _

lemma not_mem_pureAgents_of_etype (g : Gateway) (st : DebateState) (e : Event)
    (h1 : etype e ≠ "agent_start") (h2 : etype e ≠ "agent_response") :
    e ∉ (pureAgents g AGENTS st).1 := by
  intro hmem
  rcases pureAgents_etypes g AGENTS st e hmem with h | h
  · exact h1 h
  · exact h2 h

lemma etype_not_mem_pureAgents (g : Gateway) (st : DebateState) (x : String)
    (h1 : x ≠ "agent_start") (h2 : x ≠ "agent_response") :
    x ∉ (pureAgents g AGENTS st).1.map etype := by
  intro hmem
  obtain ⟨e, he, heq⟩ := List.mem_map.mp hmem
  rw [← heq] at h1 h2
  exact not_mem_pureAgents_of_etype g st e h1 h2 he

lemma not_mem_pureRounds_of_etype (g : Gateway) (l : List Int) (st : DebateState)
    (e : Event) (h1 : etype e ≠ "round_start") (h2 : etype e ≠ "agent_start")
    (h3 : etype e ≠ "agent_response") (h4 : etype e ≠ "round_complete") :
    e ∉ (pureRounds g l st).1 := by
  intro hmem
  rcases pureRounds_etypes g l st e hmem with h | h | h | h
  · exact h1 h
  · exact h2 h
  · exact h3 h
  · exact h4 h

lemma etype_not_mem_pureRounds (g : Gateway) (l : List Int) (st : DebateState)
    (x : String) (h1 : x ≠ "round_start") (h2 : x ≠ "agent_start")
    (h3 : x ≠ "agent_response") (h4 : x ≠ "round_complete") :
    x ∉ (pureRounds g l st).1.map etype := by
  intro hmem
  obtain ⟨e, he, heq⟩ := List.mem_map.mp hmem
  rw [← heq] at h1 h2 h3 h4
  exact not_mem_pureRounds_of_etype g l st e h1 h2 h3 h4 he

/-- Claim C4, counterexample: with one round and the flag becoming set after
that round completes (first observed at the synthesis guard — read number
13, the 14th and last read of the run), the stream ends with `complete` and
contains no `cancelled` event at all: once set, the sequence does NOT
always end with a `cancelled` event.  Synthesis is nevertheless skipped. -/
theorem cancellation_cx :
    cancelRead (some 13) 13 = true ∧
    (run_debate gwOk (some 13) "t" 1).k = 14 ∧
    Event.cancelled ∉ (run_debate gwOk (some 13) "t" 1).evs ∧
    (run_debate gwOk (some 13) "t" 1).evs.getLast? = some Event.complete ∧
    "synthesis" ∉ (run_debate gwOk (some 13) "t" 1).evs.map etype := by
  decide

/-- Claim C4, amended: if the cancellation flag is observed at a round or
agent dispatch boundary, the stream ends with a `cancelled` event, no
`round_start` for any subsequent round is emitted and no synthesis happens —
in particular, cancellation landing after round 1 completes and before
round 2 starts (first observed at read 13, the round-2 loop guard) ends the
stream with `cancelled` and emits no `round_start` for round 2; whenever a
`cancelled` event appears it is the last event of the stream.  However, a
flag first observed at the synthesis guard (set after the final round
completes) skips synthesis but ends the stream with `complete`, not
`cancelled`. -/
theorem cancellation_behavior (g : Gateway) (topic : String) (n : Int) (hn : 2 ≤ n) :
    ((run_debate g (some 13) topic n).evs.getLast? = some Event.cancelled ∧
      Event.round_start 2 ∉ (run_debate g (some 13) topic n).evs ∧
      "synthesis_start" ∉ (run_debate g (some 13) topic n).evs.map etype ∧
      "synthesis" ∉ (run_debate g (some 13) topic n).evs.map etype) ∧
    (∀ c, Event.cancelled ∈ (run_debate g c topic n).evs →
      (run_debate g c topic n).evs.getLast? = some Event.cancelled) ∧
    ((run_debate g (some ((roundNums n).length * (1 + 2 * AGENTS.length))) topic n).evs.getLast?
        = some Event.complete ∧
      Event.cancelled ∉
        (run_debate g (some ((roundNums n).length * (1 + 2 * AGENTS.length))) topic n).evs ∧
      "synthesis" ∉
        (run_debate g (some ((roundNums n).length * (1 + 2 * AGENTS.length))) topic n).evs.map
          etype) := by
  refine ⟨⟨?_, ?_, ?_, ?_⟩, fun c => run_debate_cancelled_last g c topic n, ?_, ?_, ?_⟩
  · rw [run_debate_cancel_before_round_two g topic n hn]
    exact getLast?_append_two _ _ _
  · rw [run_debate_cancel_before_round_two g topic n hn]
    intro hmem
    rcases List.mem_append.mp hmem with hmem1 | hmem2
    · rcases List.mem_append.mp hmem1 with hmem3 | hmem4
      · simp at hmem3
      · exact not_mem_pureAgents_of_etype g (initState topic n) _
          (by simp [etype]) (by simp [etype]) hmem4
    · simp at hmem2
  · rw [run_debate_cancel_before_round_two g topic n hn]
    intro hmem
    simp only [List.map_append, List.mem_append] at hmem
    rcases hmem with (hmem3 | hmem4) | hmem2
    · simp [etype] at hmem3
    · exact etype_not_mem_pureAgents g (initState topic n) _
        (by simp) (by simp) hmem4
    · simp [etype] at hmem2
  · rw [run_debate_cancel_before_round_two g topic n hn]
    intro hmem
    simp only [List.map_append, List.mem_append] at hmem
    rcases hmem with (hmem3 | hmem4) | hmem2
    · simp [etype] at hmem3
    · exact etype_not_mem_pureAgents g (initState topic n) _
        (by simp) (by simp) hmem4
    · simp [etype] at hmem2
  · rw [run_debate_cancel_at_synthesis g topic n]
    rw [List.append_assoc, List.singleton_append]
    exact getLast?_cons_concat _ _ _
  · rw [run_debate_cancel_at_synthesis g topic n]
    intro hmem
    rcases List.mem_append.mp hmem with hmem1 | hmem2
    · rcases List.mem_append.mp hmem1 with hmem3 | hmem4
      · simp at hmem3
      · exact not_mem_pureRounds_of_etype g (roundNums n) (initState topic n) _
          (by simp [etype]) (by simp [etype]) (by simp [etype]) (by simp [etype]) hmem4
    · simp at hmem2
  · rw [run_debate_cancel_at_synthesis g topic n]
    intro hmem
    simp only [List.map_append, List.mem_append] at hmem
    rcases hmem with (hmem3 | hmem4) | hmem2
    · simp [etype] at hmem3
    · exact etype_not_mem_pureRounds g (roundNums n) (initState topic n) _
        (by simp) (by simp) (by simp) (by simp) hmem4
    · simp [etype] at hmem2

/-- Witness for C4's theorem: cancellation between rounds 1 and 2 of a
2-round run with the mocked gateway. -/
theorem cancellation_behavior_w :
    (run_debate gwOk (some 13) "t" 2).evs.getLast? = some Event.cancelled ∧
    Event.round_start 2 ∉ (run_debate gwOk (some 13) "t" 2).evs :=
  ⟨(cancellation_behavior gwOk "t" 2 (by decide)).1.1,
   (cancellation_behavior gwOk "t" 2 (by decide)).1.2.1⟩

/-- Claim C7, confirmed: `_run_round_async` returns its round history in
registry dispatch order for EVERY completion order of the concurrently
dispatched gateway calls (any completion schedule visiting all task
indices), because `asyncio.gather` indexes results by task, not by
completion time; likewise, every RoundRecord of the streaming engine lists
agents exactly in `AGENTS` registry order. -/
theorem round_order_independent (order : List Nat)
    (h : ∀ i, i < factoryAgentNames.length → i ∈ order)
    (respond : String → String → Int → List String → String)
    (topic : String) (rn : Int) (hist : List String) :
    run_round_sim order respond topic rn hist =
      factoryAgentNames.map (fun nm =>
        "Round " ++ toString rn ++ " | " ++ nm ++ ": " ++ respond nm topic rn hist) ∧
    (∀ (g : Gateway), (∀ p, (g p).isSome) → ∀ (topic2 : String) (n2 : Int),
      ∀ rec ∈ (run_debate g none topic2 n2).st.all_rounds,
        rec.map (fun r => r.agent) = AGENTS.map Agent.name) := by
  constructor
  · have h0 := h 0 (by decide)
    have h1 := h 1 (by decide)
    have h2 := h 2 (by decide)
    have h3 := h 3 (by decide)
    have h4 := h 4 (by decide)
    have h5 := h 5 (by decide)
    have key := fun i hi => find?_map_key order
      (fun j => ((factoryAgentNames.map
          (fun nm => fun _ : Unit => respond nm topic rn hist)).getD j default) ()) i hi
    simp only [run_round_sim, gatherSim]
    rw [show (factoryAgentNames.map
        (fun nm => fun _ : Unit => respond nm topic rn hist)).length = 6 from rfl]
    rw [show List.range 6 = [0, 1, 2, 3, 4, 5] from rfl]
    simp only [List.map_cons, List.map_nil]
    rw [key 0 h0, key 1 h1, key 2 h2, key 3 h3, key 4 h4, key 5 h5]
    simp [factoryAgentNames]
  · intro g hg topic2 n2
    rw [run_debate_none]
    intro rec hrec
    simp only at hrec
    exact pureRounds_records g (fun rec => rec.map (fun r => r.agent) = AGENTS.map Agent.name)
      (fun st _ => (pureAgents_total g hg AGENTS st).1)
      (roundNums n2) (initState topic2 n2) (by simp [initState]) rec hrec

/-- Witness for C7's theorem at a reversed completion order. -/
theorem round_order_independent_w :
    run_round_sim [5, 4, 3, 2, 1, 0] (fun nm _ _ _ => nm) "T" 1 [] =
      factoryAgentNames.map (fun nm =>
        "Round " ++ toString (1 : Int) ++ " | " ++ nm ++ ": " ++ nm) :=
  (round_order_independent [5, 4, 3, 2, 1, 0] (by decide)
    (fun nm _ _ _ => nm) "T" 1 []).1

/-- Concrete 11-entry history whose first entry is dropped by the
`history[-10:]` truncation of `AgentFactory.get_agent_response`. -/
def hist11 : List String :=
  ["zebra", "m1", "m2", "m3", "m4", "m5", "m6", "m7", "m8", "m9", "m10"]

set_option maxRecDepth 8192 in
/-- Claim C9, counterexample: with 11 prior history entries and round 2, the
prompt built by `AgentFactory.get_agent_response` omits the oldest entry
("zebra") entirely — the claim that no prior-round response is omitted or
truncated from the context is false for this Context Builder. -/
theorem context_truncation_cx :
    "zebra" ∈ hist11 ∧
    containsSub (af_prompt "Economic Analyst" AF_Economic "T" 2 hist11) "zebra" = false ∧
    "zebra" ∉ lastN hist11 10 := by
  decide

/-- Claim C9, amended: the streaming engine's Context Builder
(`create_agent_prompt`) embeds every completed round's AgentResponse — each
`"agent: response"` line occurs in the prompt whenever `round > 1`; the
`AgentFactory` prompt builder, however, includes only the last 10 history
entries (`history[-10:]`), each of which does occur in its prompt, so
entries older than the last 10 are omitted. -/
theorem context_completeness (a : Agent) (s : DebateState) (h1 : 1 < s.current_round) :
    (∀ rnd ∈ s.all_rounds, ∀ r ∈ rnd,
      containsSub (create_agent_prompt a s) (respLine r) = true) ∧
    (∀ (nm : String) (info : AFAgent) (topic : String) (rn : Int) (history : List String),
      (∀ e ∈ lastN history 10, containsSub (af_prompt nm info topic rn history) e = true) ∧
      lastN history 10 = history.drop (history.length - 10)) := by
  constructor
  · intro rnd hrnd r hr
    simp only [containsSub, decide_eq_true_eq]
    exact create_agent_prompt_contains a s h1 rnd hrnd r hr
  · intro nm info topic rn history
    refine ⟨?_, rfl⟩
    intro e he
    simp only [containsSub, decide_eq_true_eq]
    exact af_prompt_contains nm info topic rn history e he

/-- A concrete round-1 response used by the C9 witness. -/
def respC9 : AgentResponse := ⟨"Finance", 1, "Support", [], "go"⟩

/-- A concrete round-2 state with one completed round, for the C9 witness. -/
def stC9 : DebateState := ⟨"T", 2, 2, [], [[respC9]], "", "", 0⟩

/-- Witness for C9's theorem: a concrete completed round embedded in a
round-2 prompt. -/
theorem context_completeness_w :
    containsSub (create_agent_prompt AG_Finance stC9) (respLine respC9) = true :=
  (context_completeness AG_Finance stC9 (by decide)).1 [respC9] (by simp [stC9])
    respC9 (by simp)
